import Mathlib

/-!
Verification of the messaging subsystem of the cloud-native-platform
repository: the Kafka consumer group handler
(`project-service/internal/kafka/consumer.go`), the producing-side message
service (`student-service/internal/message/service.go`), and the HTTP
boundary of the producing edge.

Go code is shallowly embedded: the consumer's per-message loop becomes a
pure function from the delivered message list to a trace of observable
effects (log entries, repository Create calls, MarkMessage calls); the
repository, the JSON decoder and the broker send are abstracted as
function parameters, mirroring the interfaces the Go code programs
against.
-/

/-- A Go context value, as passed to `Repository.Create`.  The consumer
session owns a context that may be cancelled or carry a deadline;
`context.Background()` is never cancelled and carries no deadline. -/
inductive Ctx where
  | background
  | session (cancelled : Bool)
  | withDeadline (deadline : Nat)
deriving DecidableEq, Repr

/-- Whether a context has been cancelled.  `context.Background()` never is. -/
def Ctx.isCancelled : Ctx → Bool
  | .session c => c
  | _ => false

/-- The deadline a context imposes, if any.  `context.Background()` has none. -/
def Ctx.deadline : Ctx → Option Nat
  | .withDeadline d => some d
  | _ => none

/-- The wire event (`message.MessageEvent`): `{Email, Message}`, decoded
from the Kafka message body. -/
structure MessageEvent where
  email : String
  message : String
deriving DecidableEq, Repr

/-- The persisted record (`message.Message`): `{ID, Email, Message}`.  The
store assigns `ID`; the consumer builds the record with the zero `ID`. -/
structure Message where
  id : Int
  email : String
  message : String
deriving DecidableEq, Repr

/-- A delivered Kafka message (`sarama.ConsumerMessage`): topic, partition,
offset, and the raw body bytes (modelled as a string). -/
structure ConsumerMessage where
  topic : String
  partition : Int
  offset : Int
  value : String
deriving DecidableEq, Repr

/-- slog levels used by the consumer and the producer service. -/
inductive LogLevel where
  | info
  | error
deriving DecidableEq, Repr

/-- A structured log attribute value. -/
inductive AttrVal where
  | str (s : String)
  | int (n : Int)
  | err (e : String)
deriving DecidableEq, Repr

/-- A structured log entry: level, message, and key/value attributes in
the order the Go call site lists them. -/
structure LogEntry where
  level : LogLevel
  msg : String
  attrs : List (String × AttrVal)
deriving DecidableEq, Repr

instance {ε α : Type} [DecidableEq ε] [DecidableEq α] : DecidableEq (Except ε α) := fun
  | .error a, .error b => decidable_of_iff (a = b) (by simp)
  | .error _, .ok _ => isFalse (by simp)
  | .ok _, .error _ => isFalse (by simp)
  | .ok a, .ok b => decidable_of_iff (a = b) (by simp)

/-- An observable effect of the consumer group handler, in program order:
a structured log entry, a `Repository.Create` call (with the context and
record passed and the result returned), or a `session.MarkMessage` call. -/
inductive TraceEv where
  | log (entry : LogEntry)
  | createCall (ctx : Ctx) (rec : Message) (res : Except String Message)
  | mark (m : ConsumerMessage)
deriving DecidableEq, Repr

/-- The message repository (`message.Repository`), abstracted over its
store state: `Create(ctx, msg)` returns an error or the stored record
(with the store-assigned id), plus the updated store state. -/
structure Repo (σ : Type) where
  create : σ → Ctx → Message → Except String Message × σ

/-- The record the handler builds from a decoded event before persisting:
`&message.Message\x7bEmail: event.Email, Message: event.Message\x7d` (zero id). -/
def recordOf (ev : MessageEvent) : Message :=
  { id := 0, email := ev.email, message := ev.message }

/-- The per-message Info log the handler emits on receipt: topic,
partition and offset of the delivered message. -/
def recvEntry (m : ConsumerMessage) : LogEntry :=
  { level := .info, msg := "received message from Kafka",
    attrs := [("topic", .str m.topic), ("partition", .int m.partition),
              ("offset", .int m.offset)] }

/-- An Error-level log entry carrying only the error, as the handler's
failure paths emit. -/
def errEntry (text e : String) : LogEntry :=
  { level := .error, msg := text, attrs := [("error", .err e)] }

/-- The Info log emitted after a successful persist: email, message and
the store-assigned id of the record. -/
def savedEntry (ev : MessageEvent) (saved : Message) : LogEntry :=
  { level := .info, msg := "message saved to database",
    attrs := [("email", .str ev.email), ("message", .str ev.message),
              ("id", .int saved.id)] }

/-- The body of the handler's loop for one delivered message
(`consumerGroupHandler.ConsumeClaim`): log receipt; `json.Unmarshal` the
body (on failure log and mark); build the record and call
`repository.Create(context.Background(), ...)` (on failure log and mark);
on success log and mark.  Returns the effect trace and the store state. -/
def processMessage (unm : String → Except String MessageEvent) (repo : Repo σ)
    (st : σ) (m : ConsumerMessage) : List TraceEv × σ :=
  let recv := TraceEv.log (recvEntry m)
  match unm m.value with
  | .error e =>
      ([recv, .log (errEntry "failed to unmarshal message" e), .mark m], st)
  | .ok ev =>
      let dbMessage := recordOf ev
      match repo.create st Ctx.background dbMessage with
      | (.error e, st') =>
          ([recv, .createCall Ctx.background dbMessage (.error e),
            .log (errEntry "failed to save message to database" e), .mark m], st')
      | (.ok saved, st') =>
          ([recv, .createCall Ctx.background dbMessage (.ok saved),
            .log (savedEntry ev saved), .mark m], st')

/-- The `for msg := range claim.Messages()` loop of `ConsumeClaim`, over
the finite list of messages the claim delivers. -/
def consumeLoop (unm : String → Except String MessageEvent) (repo : Repo σ)
    (st : σ) : List ConsumerMessage → List TraceEv × σ
  | [] => ([], st)
  | m :: ms =>
      let r := processMessage unm repo st m
      let r' := consumeLoop unm repo r.2 ms
      (r.1 ++ r'.1, r'.2)

/-- The result of one `ConsumeClaim` invocation: the effect trace, the
final store state, and the error value `ConsumeClaim` returns. -/
structure ClaimResult (σ : Type) where
  trace : List TraceEv
  state : σ
  retErr : Option String
deriving Repr

/-- `consumerGroupHandler.ConsumeClaim`: the handler receives the
consumer-group session (whose context `sctx` it never consults), runs the
loop over the delivered messages, and ends with `return nil`. -/
def consumeClaim (sctx : Ctx) (unm : String → Except String MessageEvent)
    (repo : Repo σ) (st : σ) (ms : List ConsumerMessage) : ClaimResult σ :=
  let r := consumeLoop unm repo st ms
  { trace := r.1, state := r.2, retErr := none }

/-- Projection: the `MarkMessage` calls of a trace, in order. -/
def marksOf (tr : List TraceEv) : List ConsumerMessage :=
  tr.filterMap fun e => match e with
    | .mark m => some m
    | _ => none

/-- Projection: the `Repository.Create` calls of a trace — the context and
record passed to each, in call order. -/
def createsOf (tr : List TraceEv) : List (Ctx × Message) :=
  tr.filterMap fun e => match e with
    | .createCall c rec _ => some (c, rec)
    | _ => none

/-- Projection: the log entries of a trace, in order. -/
def logsOf (tr : List TraceEv) : List LogEntry :=
  tr.filterMap fun e => match e with
    | .log le => some le
    | _ => none

/-- Whether a trace event, if it is a Create call, passed
`context.Background()`. -/
def TraceEv.createCtxOk : TraceEv → Bool
  | .createCall c _ _ => c = Ctx.background
  | _ => true

/-- The mock repository of the consumer integration test
(`MockMessageRepository`): `Create` assigns `ID := len+1`, appends the
record and succeeds. -/
def mockRepo : Repo (List Message) :=
  { create := fun st _ rec =>
      let saved := { rec with id := (st.length : Int) + 1 }
      (.ok saved, st ++ [saved]) }

/-- A repository whose `Create` always fails, for exercising the
persistence-failure path. -/
def failRepo : Repo Unit :=
  { create := fun _ _ _ => (.error "database unavailable", ()) }

/-- A decoder that rejects every body, as `json.Unmarshal` does on a
non-JSON payload. -/
def badUnm : String → Except String MessageEvent :=
  fun _ => .error "invalid character"

/-- A decoder that accepts every body as a fixed event, for concrete runs
of the decodable path. -/
def okUnm : String → Except String MessageEvent :=
  fun _ => .ok { email := "a@x.com", message := "hello" }

/-- A concrete delivered message used in concrete runs. -/
def m0 : ConsumerMessage :=
  { topic := "messages", partition := 0, offset := 5, value := "invalid json" }

/-- The result of one `Service.SendMessage` call on the producing side:
log entries, the producer `SendMessage` invocations (key and event passed,
in order), and the returned error value. -/
structure SendResult where
  logs : List LogEntry
  producerCalls : List (String × MessageEvent)
  retErr : Option String
deriving DecidableEq, Repr

/-- `message.Service.SendMessage` of the student-service: builds the
event from email and message, logs, calls `producer.SendMessage(email,
event)` (the producer abstracted as `send`), logs and returns the error
on failure, returns nil on success.  The context argument is unused by
the Go method. -/
def sendMessage (send : String → MessageEvent → Option String) (ctx : Ctx)
    (email msg : String) : SendResult :=
  let event : MessageEvent := { email := email, message := msg }
  let sending : LogEntry :=
    { level := .info, msg := "sending message to kafka",
      attrs := [("email", .str email)] }
  match send email event with
  | some e =>
      { logs := [sending, errEntry "failed to send message" e],
        producerCalls := [(email, event)], retErr := some e }
  | none =>
      { logs := [sending], producerCalls := [(email, event)], retErr := none }

/-- One iteration of `Consumer.Start`s loop, as an oracle: the error
`consumer.Consume` would return (none on clean return, e.g. after a
rebalance), and the error `ctx.Err()` would report when checked right
after that return. -/
structure StartRound where
  consumeErr : Option String
  ctxErr : Option String
deriving DecidableEq, Repr

/-- How a `Consumer.Start` run ended: the `Consume` error propagated to
the caller, or the context error returned after cancellation. -/
inductive StartOutcome where
  | consumeFailed (e : String)
  | cancelled (e : String)
deriving DecidableEq, Repr

/-- `Consumer.Start`: loop forever; call `Consume`; on error log and
return it; then if the context reports an error return that; otherwise
re-enter the loop.  Run against a finite oracle of rounds; `none` means
the run was still looping when the oracle ran out. -/
def startRun : List StartRound → List LogEntry × Option StartOutcome
  | [] => ([], none)
  | r :: rest =>
      match r.consumeErr with
      | some e => ([errEntry "error consuming messages" e], some (.consumeFailed e))
      | none =>
          match r.ctxErr with
          | some e => ([], some (.cancelled e))
          | none => startRun rest

/-- Consumer-group rebalance strategies offered by the client library. -/
inductive BalanceStrategy where
  | range
  | roundRobin
  | sticky
deriving DecidableEq, Repr

/-- Initial-offset policies: `OffsetNewest` starts at the log end,
`OffsetOldest` at the beginning. -/
inductive OffsetPolicy where
  | newest
  | oldest
deriving DecidableEq, Repr

/-- The consumer-group configuration `NewConsumer` builds. -/
structure GroupConfig where
  version : String
  rebalanceStrategy : BalanceStrategy
  initialOffset : OffsetPolicy
deriving DecidableEq, Repr

/-- The configuration `NewConsumer` always constructs: Kafka 2.8.0.0,
round-robin rebalancing, initial offset `OffsetNewest`. -/
def newConsumerConfig : GroupConfig :=
  { version := "2.8.0.0", rebalanceStrategy := .roundRobin,
    initialOffset := .newest }

/-- The fixed group id `NewConsumer` passes to `NewConsumerGroup`. -/
def newConsumerGroupID : String := "project-service-group"

/-- Modelled from the spec: the broker's initial-offset contract, which is
external to this repository (the broker abstraction of section 2; its
contract must be honored).  A group with no committed offset that joins
under `OffsetNewest` is delivered only messages published after the join;
under `OffsetOldest` it is also delivered the earlier ones. -/
def deliveredFrom (policy : OffsetPolicy)
    (preJoin postJoin : List ConsumerMessage) : List ConsumerMessage :=
  match policy with
  | .newest => postJoin
  | .oldest => preJoin ++ postJoin

/-- The request body of the send-message endpoint
(`message.SendMessageRequest`). -/
structure SendMessageRequest where
  message : String
deriving DecidableEq, Repr

/-- Modelled from the spec: the student-service HTTP message handler
(`message.Handler`), whose source is absent from the tree (only its tests
are present).  Per the spec's HTTP-layer contract and the handler tests:
missing sender identity in the request context is answered 401 before the
producer is called; an undecodable body or an empty message is answered
400 before the producer is called; otherwise the handler calls
`Service.SendMessage` (embedded above) once, answering 500 on a producer
error and 200 on success.  Returns the status code and the producer
invocations made. -/
def handleSendMessage (identity : Option String)
    (body : Except String SendMessageRequest)
    (send : String → MessageEvent → Option String) :
    Nat × List (String × MessageEvent) :=
  match identity with
  | none => (401, [])
  | some email =>
      match body with
      | .error _ => (400, [])
      | .ok req =>
          if req.message = "" then (400, [])
          else
            let r := sendMessage send Ctx.background email req.message
            match r.retErr with
            | some _ => (500, r.producerCalls)
            | none => (200, r.producerCalls)

/-- A decoder mimicking the integration test mix: the literal body
"invalid json" fails to decode, every other body decodes to an event
carrying it. -/
def demoUnm : String → Except String MessageEvent := fun s =>
  if s = "invalid json" then .error "invalid character"
  else .ok { email := "user@example.com", message := s }

/-- A second concrete delivered message, with a decodable body. -/
def m1 : ConsumerMessage :=
  { topic := "messages", partition := 0, offset := 6, value := "hello" }

/-- A producer send that always succeeds, for concrete runs. -/
def noSend : String → MessageEvent → Option String := fun _ _ => none

theorem processMessage_decode_error {unm : String → Except String MessageEvent}
    {repo : Repo σ} {st : σ} {m : ConsumerMessage} {e : String}
    (h : unm m.value = .error e) :
    processMessage unm repo st m =
      ([.log (recvEntry m), .log (errEntry "failed to unmarshal message" e),
        .mark m], st) := by
  simp [processMessage, h]

theorem processMessage_create_error {unm : String → Except String MessageEvent}
    {repo : Repo σ} {st st' : σ} {m : ConsumerMessage} {ev : MessageEvent}
    {e : String} (h : unm m.value = .ok ev)
    (hc : repo.create st Ctx.background (recordOf ev) = (.error e, st')) :
    processMessage unm repo st m =
      ([.log (recvEntry m), .createCall Ctx.background (recordOf ev) (.error e),
        .log (errEntry "failed to save message to database" e), .mark m], st') := by
  simp [processMessage, h, hc]

theorem processMessage_create_ok {unm : String → Except String MessageEvent}
    {repo : Repo σ} {st st' : σ} {m : ConsumerMessage} {ev : MessageEvent}
    {saved : Message} (h : unm m.value = .ok ev)
    (hc : repo.create st Ctx.background (recordOf ev) = (.ok saved, st')) :
    processMessage unm repo st m =
      ([.log (recvEntry m), .createCall Ctx.background (recordOf ev) (.ok saved),
        .log (savedEntry ev saved), .mark m], st') := by
  simp [processMessage, h, hc]

theorem consumeLoop_cons {unm : String → Except String MessageEvent}
    {repo : Repo σ} {st : σ} {m : ConsumerMessage} {ms : List ConsumerMessage} :
    consumeLoop unm repo st (m :: ms) =
      ((processMessage unm repo st m).1 ++
        (consumeLoop unm repo (processMessage unm repo st m).2 ms).1,
       (consumeLoop unm repo (processMessage unm repo st m).2 ms).2) := rfl

theorem marksOf_append (a b : List TraceEv) :
    marksOf (a ++ b) = marksOf a ++ marksOf b := by
  simp [marksOf, List.filterMap_append]

theorem createsOf_append (a b : List TraceEv) :
    createsOf (a ++ b) = createsOf a ++ createsOf b := by
  simp [createsOf, List.filterMap_append]

theorem logsOf_append (a b : List TraceEv) :
    logsOf (a ++ b) = logsOf a ++ logsOf b := by
  simp [logsOf, List.filterMap_append]

theorem marksOf_processMessage (unm : String → Except String MessageEvent)
    (repo : Repo σ) (st : σ) (m : ConsumerMessage) :
    marksOf (processMessage unm repo st m).1 = [m] := by
  rcases h : unm m.value with e | ev
  · simp [processMessage_decode_error h, marksOf]
  · rcases hc : repo.create st Ctx.background (recordOf ev) with ⟨res, st'⟩
    cases res with
    | error e => simp [processMessage_create_error h hc, marksOf]
    | ok saved => simp [processMessage_create_ok h hc, marksOf]

theorem createsOf_processMessage (unm : String → Except String MessageEvent)
    (repo : Repo σ) (st : σ) (m : ConsumerMessage) :
    createsOf (processMessage unm repo st m).1 =
      ((unm m.value).toOption.map fun ev => (Ctx.background, recordOf ev)).toList := by
  rcases h : unm m.value with e | ev
  · simp [processMessage_decode_error h, createsOf, Except.toOption]
  · rcases hc : repo.create st Ctx.background (recordOf ev) with ⟨res, st'⟩
    cases res with
    | error e => simp [processMessage_create_error h hc, createsOf, Except.toOption]
    | ok saved => simp [processMessage_create_ok h hc, createsOf, Except.toOption]

theorem processMessage_all_createCtxOk (unm : String → Except String MessageEvent)
    (repo : Repo σ) (st : σ) (m : ConsumerMessage) :
    ((processMessage unm repo st m).1.all TraceEv.createCtxOk) = true := by
  rcases h : unm m.value with e | ev
  · simp [processMessage_decode_error h, TraceEv.createCtxOk]
  · rcases hc : repo.create st Ctx.background (recordOf ev) with ⟨res, st'⟩
    cases res with
    | error e => simp [processMessage_create_error h hc, TraceEv.createCtxOk]
    | ok saved => simp [processMessage_create_ok h hc, TraceEv.createCtxOk]

theorem processMessage_getLast (unm : String → Except String MessageEvent)
    (repo : Repo σ) (st : σ) (m : ConsumerMessage) :
    ((processMessage unm repo st m).1).getLast? = some (.mark m) := by
  rcases h : unm m.value with e | ev
  · simp [processMessage_decode_error h]
  · rcases hc : repo.create st Ctx.background (recordOf ev) with ⟨res, st'⟩
    cases res with
    | error e => simp [processMessage_create_error h hc]
    | ok saved => simp [processMessage_create_ok h hc]

theorem processMessage_head (unm : String → Except String MessageEvent)
    (repo : Repo σ) (st : σ) (m : ConsumerMessage) :
    ((processMessage unm repo st m).1).head? = some (.log (recvEntry m)) := by
  rcases h : unm m.value with e | ev
  · simp [processMessage_decode_error h]
  · rcases hc : repo.create st Ctx.background (recordOf ev) with ⟨res, st'⟩
    cases res with
    | error e => simp [processMessage_create_error h hc]
    | ok saved => simp [processMessage_create_ok h hc]

theorem logsOf_processMessage_failure_attrs (unm : String → Except String MessageEvent)
    (repo : Repo σ) (st : σ) (m : ConsumerMessage) :
    ∀ le ∈ logsOf (processMessage unm repo st m).1,
      (le.msg = "failed to unmarshal message" ∨
       le.msg = "failed to save message to database") →
      le.attrs.map Prod.fst = ["error"] := by
  intro le hle hmsg
  rcases h : unm m.value with e | ev
  · rw [processMessage_decode_error h] at hle
    simp [logsOf] at hle
    rcases hle with hle | hle
    · subst hle; simp [recvEntry] at hmsg
    · subst hle; simp [errEntry]
  · rcases hc : repo.create st Ctx.background (recordOf ev) with ⟨res, st'⟩
    cases res with
    | error e =>
        rw [processMessage_create_error h hc] at hle
        simp [logsOf] at hle
        rcases hle with hle | hle
        · subst hle; simp [recvEntry] at hmsg
        · subst hle; simp [errEntry]
    | ok saved =>
        rw [processMessage_create_ok h hc] at hle
        simp [logsOf] at hle
        rcases hle with hle | hle
        · subst hle; simp [recvEntry] at hmsg
        · subst hle; simp [savedEntry] at hmsg

theorem marksOf_consumeLoop (unm : String → Except String MessageEvent)
    (repo : Repo σ) (ms : List ConsumerMessage) :
    ∀ st : σ, marksOf (consumeLoop unm repo st ms).1 = ms := by
  induction ms with
  | nil => intro st; simp [consumeLoop, marksOf]
  | cons m ms ih =>
      intro st
      rw [consumeLoop_cons]
      simp [marksOf_append, marksOf_processMessage, ih]

theorem createsOf_consumeLoop (unm : String → Except String MessageEvent)
    (repo : Repo σ) (ms : List ConsumerMessage) :
    ∀ st : σ, createsOf (consumeLoop unm repo st ms).1 =
      ms.filterMap fun m =>
        (unm m.value).toOption.map fun ev => (Ctx.background, recordOf ev) := by
  induction ms with
  | nil => intro st; simp [consumeLoop, createsOf]
  | cons m ms ih =>
      intro st
      rw [consumeLoop_cons]
      simp only [createsOf_append, createsOf_processMessage, ih]
      rcases h : unm m.value with e | ev
      · simp [h, Except.toOption, List.filterMap_cons]
      · simp [h, Except.toOption, List.filterMap_cons]

/-- Claim C1: when a delivered message decodes as an event but the
repository `Create` call fails, the handler logs the failure and still
marks the message consumed; the error is not returned from
`ConsumeClaim`, the message is never retried (exactly one Create call
appears for it), and processing continues with the remaining messages. -/
theorem consumeClaim_persist_failure_skips_and_continues
    {σ : Type} (sctx : Ctx) (unm : String → Except String MessageEvent)
    (repo : Repo σ) (st st' : σ) (m : ConsumerMessage)
    (rest : List ConsumerMessage) (ev : MessageEvent) (e : String)
    (hdec : unm m.value = .ok ev)
    (hcreate : repo.create st Ctx.background (recordOf ev) = (.error e, st')) :
    consumeClaim sctx unm repo st (m :: rest) =
      { trace := .log (recvEntry m) ::
          .createCall Ctx.background (recordOf ev) (.error e) ::
          .log (errEntry "failed to save message to database" e) ::
          .mark m :: (consumeLoop unm repo st' rest).1,
        state := (consumeLoop unm repo st' rest).2,
        retErr := none } := by
  simp [consumeClaim, consumeLoop_cons, processMessage_create_error hdec hcreate]

theorem consumeClaim_persist_failure_skips_and_continues_witness :
    okUnm m0.value = .ok { email := "a@x.com", message := "hello" } ∧
    failRepo.create () Ctx.background
        (recordOf { email := "a@x.com", message := "hello" }) =
      (.error "database unavailable", ()) ∧
    consumeClaim Ctx.background okUnm failRepo () [m0] =
      { trace := [.log (recvEntry m0),
          .createCall Ctx.background
            (recordOf { email := "a@x.com", message := "hello" })
            (.error "database unavailable"),
          .log (errEntry "failed to save message to database"
            "database unavailable"),
          .mark m0],
        state := (), retErr := none } := by
  refine ⟨rfl, rfl, ?_⟩
  have h := consumeClaim_persist_failure_skips_and_continues Ctx.background okUnm
    failRepo () () m0 [] { email := "a@x.com", message := "hello" }
    "database unavailable" rfl rfl
  simpa [consumeLoop] using h

/-- Claim C2: when a delivered message fails to decode, the handler makes
no `Create` call for it, logs the failure, marks it consumed with the
store state unchanged, returns no error, and processes the remaining
messages exactly as if the bad message had not been there. -/
theorem consumeClaim_decode_failure_skips_and_continues
    {σ : Type} (sctx : Ctx) (unm : String → Except String MessageEvent)
    (repo : Repo σ) (st : σ) (m : ConsumerMessage)
    (rest : List ConsumerMessage) (e : String)
    (hdec : unm m.value = .error e) :
    consumeClaim sctx unm repo st (m :: rest) =
      { trace := .log (recvEntry m) ::
          .log (errEntry "failed to unmarshal message" e) ::
          .mark m :: (consumeLoop unm repo st rest).1,
        state := (consumeLoop unm repo st rest).2, retErr := none } ∧
    createsOf (consumeClaim sctx unm repo st (m :: rest)).trace =
      createsOf (consumeLoop unm repo st rest).1 := by
  constructor
  · simp [consumeClaim, consumeLoop_cons, processMessage_decode_error hdec]
  · simp [consumeClaim, consumeLoop_cons, processMessage_decode_error hdec,
      createsOf_append, createsOf]

theorem consumeClaim_decode_failure_skips_and_continues_witness :
    demoUnm m0.value = .error "invalid character" ∧
    createsOf (consumeClaim Ctx.background demoUnm mockRepo [] [m0, m1]).trace =
      [(Ctx.background,
        recordOf { email := "user@example.com", message := "hello" })] := by
  refine ⟨rfl, ?_⟩
  have h := (consumeClaim_decode_failure_skips_and_continues Ctx.background demoUnm
    mockRepo [] m0 [m1] "invalid character" rfl).2
  rw [h]
  decide

/-- Claim C3: `Repository.Create` is called exactly once per decodable
message, in delivery order, with a record whose email and message fields
come from the decoded event; no deduplication happens, so delivering the
same decodable message twice yields two Create calls. -/
theorem consumeClaim_one_create_per_decodable_in_order
    {σ : Type} (sctx : Ctx) (unm : String → Except String MessageEvent)
    (repo : Repo σ) (st : σ) (ms : List ConsumerMessage) :
    createsOf (consumeClaim sctx unm repo st ms).trace =
      (ms.filterMap fun m =>
        (unm m.value).toOption.map fun ev => (Ctx.background, recordOf ev)) ∧
    (∀ ev : MessageEvent,
      (recordOf ev).email = ev.email ∧ (recordOf ev).message = ev.message) ∧
    (∀ m ev, unm m.value = .ok ev →
      createsOf (consumeClaim sctx unm repo st [m, m]).trace =
        [(Ctx.background, recordOf ev), (Ctx.background, recordOf ev)]) := by
  refine ⟨?_, fun ev => ⟨rfl, rfl⟩, ?_⟩
  · simpa [consumeClaim] using createsOf_consumeLoop unm repo ms st
  · intro m ev h
    have h2 := createsOf_consumeLoop unm repo [m, m] st
    simpa [consumeClaim, h, Except.toOption, List.filterMap_cons] using h2

theorem consumeClaim_one_create_per_decodable_in_order_witness :
    okUnm m1.value = .ok { email := "a@x.com", message := "hello" } ∧
    createsOf (consumeClaim Ctx.background okUnm mockRepo [] [m1, m1]).trace =
      [(Ctx.background, recordOf { email := "a@x.com", message := "hello" }),
       (Ctx.background, recordOf { email := "a@x.com", message := "hello" })] :=
  ⟨rfl, (consumeClaim_one_create_per_decodable_in_order Ctx.background okUnm
    mockRepo [] []).2.2 m1 { email := "a@x.com", message := "hello" } rfl⟩

/-- Claim C4: every delivered message is marked consumed exactly once, in
order, and on each of the three control paths the mark is the last
per-message effect, so the handler only proceeds past a message after
marking it. -/
theorem consumeClaim_marks_each_message_once
    {σ : Type} (sctx : Ctx) (unm : String → Except String MessageEvent)
    (repo : Repo σ) (st : σ) (ms : List ConsumerMessage) :
    marksOf (consumeClaim sctx unm repo st ms).trace = ms ∧
    (∀ (st2 : σ) (m : ConsumerMessage),
      ((processMessage unm repo st2 m).1).getLast? = some (.mark m)) := by
  constructor
  · simpa [consumeClaim] using marksOf_consumeLoop unm repo ms st
  · intro st2 m
    exact processMessage_getLast unm repo st2 m

/-- Claim C5: `Service.SendMessage` invokes the producer exactly once,
with the email as the partition key and an event built from the email and
message (no re-validation, empty strings included), and returns exactly
the producer's result. -/
theorem sendMessage_single_send_and_ack
    (send : String → MessageEvent → Option String) (ctx : Ctx)
    (email msg : String) :
    (sendMessage send ctx email msg).producerCalls =
      [(email, { email := email, message := msg })] ∧
    (sendMessage send ctx email msg).retErr =
      send email { email := email, message := msg } := by
  cases h : send email { email := email, message := msg } <;>
    simp [sendMessage, h]

/-- Claim C6: `Consumer.Start` returns a non-nil error exactly when
`Consume` returns an error (propagated unchanged, without internal retry)
or the context has been cancelled (its error is returned); when `Consume`
returns cleanly and the context is live, `Start` re-enters the
join/consume loop. -/
theorem startRun_error_characterization :
    (∀ (e : String) (c : Option String) (rest : List StartRound),
      startRun (({ consumeErr := some e, ctxErr := c } : StartRound) :: rest) =
        ([errEntry "error consuming messages" e], some (.consumeFailed e))) ∧
    (∀ (e : String) (rest : List StartRound),
      startRun (({ consumeErr := none, ctxErr := some e } : StartRound) :: rest) =
        ([], some (.cancelled e))) ∧
    (∀ rest : List StartRound,
      startRun (({ consumeErr := none, ctxErr := none } : StartRound) :: rest) =
        startRun rest) ∧
    startRun [] = ([], none) ∧
    (∀ rounds : List StartRound,
      (startRun rounds).2.isSome ↔
        ∃ r ∈ rounds, r.consumeErr.isSome ∨ r.ctxErr.isSome) := by
  refine ⟨fun e c rest => rfl, fun e rest => rfl, fun rest => rfl, rfl, ?_⟩
  intro rounds
  induction rounds with
  | nil => simp [startRun]
  | cons r rest ih =>
      rcases r with ⟨ce, xe⟩
      cases ce with
      | some e => simp [startRun]
      | none =>
          cases xe with
          | some e => simp [startRun]
          | none => simpa [startRun] using ih

/-- Claim C7: at the HTTP boundary, a request with no sender identity is
answered 401 and a request with an undecodable body or an empty message
is answered 400, all before the producer is invoked; a request that
reaches the producer is answered 500 (a 5xx) on a producer error and 200
(a 2xx) on success. -/
theorem handleSendMessage_http_contract :
    (∀ (body : Except String SendMessageRequest)
       (send : String → MessageEvent → Option String),
      handleSendMessage none body send = (401, [])) ∧
    (∀ (id e : String) (send : String → MessageEvent → Option String),
      handleSendMessage (some id) (.error e) send = (400, [])) ∧
    (∀ (id : String) (send : String → MessageEvent → Option String),
      handleSendMessage (some id) (.ok { message := "" }) send = (400, [])) ∧
    (∀ (id msg : String) (send : String → MessageEvent → Option String),
      msg ≠ "" →
      (handleSendMessage (some id) (.ok { message := msg }) send).2 =
        [(id, { email := id, message := msg })] ∧
      (handleSendMessage (some id) (.ok { message := msg }) send).1 =
        (if (send id { email := id, message := msg }).isSome then 500 else 200) ∧
      (handleSendMessage (some id) (.ok { message := msg }) send).1 / 100 =
        (if (send id { email := id, message := msg }).isSome then 5 else 2)) := by
  refine ⟨fun body send => rfl, fun id e send => rfl, fun id send => rfl, ?_⟩
  intro id msg send hne
  refine ⟨?_, ?_, ?_⟩ <;>
    cases h : send id { email := id, message := msg } <;>
      simp [handleSendMessage, sendMessage, h, hne]

theorem handleSendMessage_http_contract_witness :
    ("Hello from test!" : String) ≠ "" ∧
    ((handleSendMessage (some "test@example.com")
        (.ok { message := "Hello from test!" })
        noSend).2 =
      [("test@example.com",
        { email := "test@example.com", message := "Hello from test!" })] ∧
     (handleSendMessage (some "test@example.com")
        (.ok { message := "Hello from test!" })
        noSend).1 =
      (if (noSend "test@example.com"
            { email := "test@example.com",
              message := "Hello from test!" }).isSome then 500 else 200) ∧
     (handleSendMessage (some "test@example.com")
        (.ok { message := "Hello from test!" })
        noSend).1 / 100 =
      (if (noSend "test@example.com"
            { email := "test@example.com",
              message := "Hello from test!" }).isSome then 5 else 2)) :=
  ⟨by decide, handleSendMessage_http_contract.2.2.2 "test@example.com"
    "Hello from test!" noSend (by decide)⟩

/-- Claim C8 is false as stated: in a concrete run, the decode-failure
log entry and the persistence-failure log entry carry only the error —
neither includes a partition or offset attribute. -/
theorem consumeClaim_failure_log_metadata_counterexample :
    (¬ ∀ le ∈ logsOf (consumeClaim Ctx.background badUnm mockRepo [] [m0]).trace,
        le.msg = "failed to unmarshal message" →
        ("partition" ∈ le.attrs.map Prod.fst ∧
         "offset" ∈ le.attrs.map Prod.fst)) ∧
    (¬ ∀ le ∈ logsOf (consumeClaim Ctx.background okUnm failRepo () [m0]).trace,
        le.msg = "failed to save message to database" →
        ("partition" ∈ le.attrs.map Prod.fst ∧
         "offset" ∈ le.attrs.map Prod.fst)) := by
  constructor <;> decide

/-- Claim C8 amended: the decode-failure and persistence-failure log
entries carry only the error attribute; the failing message's partition
and offset appear instead in the received-message Info entry that starts
every per-message trace. -/
theorem consumeClaim_failure_logs_error_only
    {σ : Type} (sctx : Ctx) (unm : String → Except String MessageEvent)
    (repo : Repo σ) (st : σ) (ms : List ConsumerMessage) :
    (∀ le ∈ logsOf (consumeClaim sctx unm repo st ms).trace,
      (le.msg = "failed to unmarshal message" ∨
       le.msg = "failed to save message to database") →
      le.attrs.map Prod.fst = ["error"]) ∧
    (∀ (st2 : σ) (m : ConsumerMessage),
      ((processMessage unm repo st2 m).1).head? = some (.log (recvEntry m))) ∧
    (∀ m : ConsumerMessage,
      (recvEntry m).attrs.map Prod.fst = ["topic", "partition", "offset"]) := by
  refine ⟨?_, fun st2 m => processMessage_head unm repo st2 m, fun m => rfl⟩
  have aux : ∀ (ms2 : List ConsumerMessage) (st2 : σ),
      ∀ le ∈ logsOf (consumeLoop unm repo st2 ms2).1,
        (le.msg = "failed to unmarshal message" ∨
         le.msg = "failed to save message to database") →
        le.attrs.map Prod.fst = ["error"] := by
    intro ms2
    induction ms2 with
    | nil => intro st2 le hle; simp [consumeLoop, logsOf] at hle
    | cons m ms2 ih =>
        intro st2 le hle hmsg
        rw [consumeLoop_cons] at hle
        simp only [logsOf_append, List.mem_append] at hle
        rcases hle with hle | hle
        · exact logsOf_processMessage_failure_attrs unm repo st2 m le hle hmsg
        · exact ih (processMessage unm repo st2 m).2 le hle hmsg
  simpa [consumeClaim] using aux ms st

theorem consumeClaim_failure_logs_error_only_witness :
    (errEntry "failed to unmarshal message" "invalid character") ∈
      logsOf (consumeClaim Ctx.background badUnm mockRepo [] [m0]).trace ∧
    (errEntry "failed to unmarshal message" "invalid character").attrs.map
      Prod.fst = ["error"] := by
  refine ⟨by decide, ?_⟩
  exact (consumeClaim_failure_logs_error_only Ctx.background badUnm mockRepo
    [] [m0]).1 (errEntry "failed to unmarshal message" "invalid character")
    (by decide) (Or.inl rfl)

theorem consumeLoop_all_createCtxOk (unm : String → Except String MessageEvent)
    (repo : Repo σ) (ms : List ConsumerMessage) :
    ∀ st : σ, ((consumeLoop unm repo st ms).1.all TraceEv.createCtxOk) = true := by
  induction ms with
  | nil => intro st; simp [consumeLoop]
  | cons m ms ih =>
      intro st
      rw [consumeLoop_cons]
      simp [List.all_append, processMessage_all_createCtxOk, ih]

/-- Claim C9: every `Repository.Create` call receives
`context.Background()` — a context that is never cancelled and imposes no
deadline — and the handler's behavior does not depend on the session
context at all. -/
theorem consumeClaim_creates_use_background
    {σ : Type} (sctx : Ctx) (unm : String → Except String MessageEvent)
    (repo : Repo σ) (st : σ) (ms : List ConsumerMessage) :
    ((consumeClaim sctx unm repo st ms).trace.all TraceEv.createCtxOk) = true ∧
    Ctx.background.isCancelled = false ∧
    Ctx.background.deadline = none ∧
    (∀ sctx2 : Ctx,
      consumeClaim sctx2 unm repo st ms = consumeClaim sctx unm repo st ms) := by
  refine ⟨?_, rfl, rfl, fun sctx2 => rfl⟩
  simpa [consumeClaim] using consumeLoop_all_createCtxOk unm repo ms st

/-- Claim C10: `NewConsumer` fixes the group id "project-service-group",
a round-robin rebalance strategy and initial offset `OffsetNewest`; under
the broker's initial-offset contract a fresh group therefore receives
only messages published after its first join, so pre-join messages are
never processed or persisted. -/
theorem newConsumer_config_and_no_prejoin_delivery :
    newConsumerGroupID = "project-service-group" ∧
    newConsumerConfig.rebalanceStrategy = BalanceStrategy.roundRobin ∧
    newConsumerConfig.initialOffset = OffsetPolicy.newest ∧
    newConsumerConfig.version = "2.8.0.0" ∧
    (∀ pre post : List ConsumerMessage,
      deliveredFrom newConsumerConfig.initialOffset pre post = post) ∧
    (∀ (σ : Type) (sctx : Ctx) (unm : String → Except String MessageEvent)
       (repo : Repo σ) (st : σ) (pre post : List ConsumerMessage),
      consumeClaim sctx unm repo st
          (deliveredFrom newConsumerConfig.initialOffset pre post) =
        consumeClaim sctx unm repo st post) :=
  ⟨rfl, rfl, rfl, rfl, fun pre post => rfl,
   fun σ sctx unm repo st pre post => rfl⟩
